import Mathlib

/-!
Verification of the static-analysis core: a shallow embedding of
`packages/python-lens/analyzer.py` (the Python-native analyzer, built on
the CPython `ast` module) and of `packages/syntax-forge` (`syntax_forge/parser.py`,
`syntax_forge/ast_types.py`, `ast_utils.py`), with theorems settling the spec
claims about them.

Embedding conventions:
* Python strings are Lean `String`s; `str.lower()` is `Char.toLower` mapped over
  the characters (the sources only ever lowercase ASCII identifiers/extensions).
* the CPython `ast.walk` yields every descendant of a node "in no specified
  order" (its documentation); we model it as a pre-order depth-first
  enumeration `pyWalk`.  Every property stated below that goes through
  `pyWalk` depends only on the multiset of visited nodes (counts and
  membership), never on the enumeration order, except where the nodes in
  question are siblings at one level, where every total walk preserves the
  source order.
* A Python `dict` (the parser registry) is an insertion-ordered association
  list: updating an existing key replaces the value in place, a new key is
  appended — exactly the CPython documented dict iteration-order semantics.
* Closure-captured mutable accumulators mutated from a traversal callback
  (`nonlocal` counters, the `result` cell of `find_node_at_line`) become
  `List.foldl` over the visit sequence, folding the callback update.
-/

/-! ## Python-native AST (`ast` module fragment used by the repository)

Only the node classes and fields that `analyzer.py` and `parser.py` actually
consult are modelled.  `ast.walk` also yields bookkeeping nodes (`arg`,
`alias`, `keyword`, ...) that every `isinstance` dispatch in the sources
ignores; they are omitted since no observable of the code depends on them. -/

/-- Position attributes of a located Python AST node
(`lineno`, `col_offset`, `end_lineno`, `end_col_offset`). -/
structure PyPos where
  lineno : Nat
  colOffset : Nat
  endLineno : Nat
  endColOffset : Nat
deriving DecidableEq, Repr

/-- `ast.Constant` payloads occurring in the sources. -/
inductive PyConst where
  | str (s : String)
  | int (n : Int)
  | bool (b : Bool)
  | noneConst
deriving DecidableEq, Repr

/-- The fragment of the CPython `ast` node hierarchy consumed by the repository.
`functionDef` / `asyncFunctionDef` are distinct constructors because
`ast.AsyncFunctionDef` is not a subclass of `ast.FunctionDef` in Python, so
`isinstance(node, ast.FunctionDef)` dispatches differ on them.
Import names model `ast.alias` as `(name, asname)` pairs. -/
inductive PyNode where
  | module (body : List PyNode)
  | functionDef (name : String) (args : List String) (body : List PyNode)
      (decoratorList : List PyNode) (ret : Option PyNode) (pos : PyPos)
  | asyncFunctionDef (name : String) (args : List String) (body : List PyNode)
      (decoratorList : List PyNode) (ret : Option PyNode) (pos : PyPos)
  | classDef (name : String) (bases : List PyNode) (body : List PyNode)
      (decoratorList : List PyNode) (pos : PyPos)
  | importStmt (names : List (String × Option String)) (pos : PyPos)
  | importFrom (module : Option String) (names : List (String × Option String)) (pos : PyPos)
  | assign (targets : List PyNode) (value : PyNode) (pos : PyPos)
  | ret (value : Option PyNode)
  | exprStmt (value : PyNode)
  | ifStmt (test : PyNode) (body : List PyNode) (orelse : List PyNode)
  | whileStmt (test : PyNode) (body : List PyNode) (orelse : List PyNode)
  | forStmt (target : PyNode) (iter : PyNode) (body : List PyNode) (orelse : List PyNode)
  | tryStmt (body : List PyNode) (handlers : List PyNode) (orelse : List PyNode)
      (finalbody : List PyNode)
  | exceptHandler (body : List PyNode)
  | passStmt
  | name (id : String)
  | attribute (value : PyNode) (attr : String)
  | call (func : PyNode) (args : List PyNode)
  | boolOp (values : List PyNode)
  | yieldExpr (value : Option PyNode)
  | constant (c : PyConst)
deriving Repr

/-- The child nodes of a Python AST node (`ast.iter_child_nodes`). -/
def PyNode.children : PyNode → List PyNode
  | .module body => body
  | .functionDef _ _ body decs r _ => body ++ decs ++ r.toList
  | .asyncFunctionDef _ _ body decs r _ => body ++ decs ++ r.toList
  | .classDef _ bases body decs _ => bases ++ body ++ decs
  | .importStmt _ _ => []
  | .importFrom _ _ _ => []
  | .assign targets value _ => targets ++ [value]
  | .ret v => v.toList
  | .exprStmt v => [v]
  | .ifStmt t b o => t :: (b ++ o)
  | .whileStmt t b o => t :: (b ++ o)
  | .forStmt tgt it b o => tgt :: it :: (b ++ o)
  | .tryStmt b h o f => b ++ h ++ o ++ f
  | .exceptHandler b => b
  | .passStmt => []
  | .name _ => []
  | .attribute v _ => [v]
  | .call f args => f :: args
  | .boolOp vs => vs
  | .yieldExpr v => v.toList
  | .constant _ => []

mutual

/-- `ast.walk(node)`: the node itself and all of its descendants.  Modelled as
pre-order DFS; CPython enumerates "in no specified order" (BFS in practice)
and all properties proved below are order-insensitive up to sibling order,
which every walk preserves.  The per-constructor right-hand sides enumerate
exactly `PyNode.children` (proved as `pyWalk_eq` below). -/
def pyWalk : PyNode → List PyNode
  | .module body => .module body :: pyWalkList body
  | .functionDef nm args body decs r p =>
      .functionDef nm args body decs r p ::
        (pyWalkList body ++ pyWalkList decs ++ pyWalkOpt r)
  | .asyncFunctionDef nm args body decs r p =>
      .asyncFunctionDef nm args body decs r p ::
        (pyWalkList body ++ pyWalkList decs ++ pyWalkOpt r)
  | .classDef nm bases body decs p =>
      .classDef nm bases body decs p ::
        (pyWalkList bases ++ pyWalkList body ++ pyWalkList decs)
  | .importStmt names p => [.importStmt names p]
  | .importFrom m names p => [.importFrom m names p]
  | .assign targets value p =>
      .assign targets value p :: (pyWalkList targets ++ pyWalk value)
  | .ret v => .ret v :: pyWalkOpt v
  | .exprStmt v => .exprStmt v :: pyWalk v
  | .ifStmt t b o => .ifStmt t b o :: (pyWalk t ++ (pyWalkList b ++ pyWalkList o))
  | .whileStmt t b o => .whileStmt t b o :: (pyWalk t ++ (pyWalkList b ++ pyWalkList o))
  | .forStmt tgt it b o =>
      .forStmt tgt it b o :: (pyWalk tgt ++ (pyWalk it ++ (pyWalkList b ++ pyWalkList o)))
  | .tryStmt b h o f =>
      .tryStmt b h o f :: (pyWalkList b ++ pyWalkList h ++ pyWalkList o ++ pyWalkList f)
  | .exceptHandler b => .exceptHandler b :: pyWalkList b
  | .passStmt => [.passStmt]
  | .name id => [.name id]
  | .attribute v a => .attribute v a :: pyWalk v
  | .call f args => .call f args :: (pyWalk f ++ pyWalkList args)
  | .boolOp vs => .boolOp vs :: pyWalkList vs
  | .yieldExpr v => .yieldExpr v :: pyWalkOpt v
  | .constant c => [.constant c]

/-- `ast.walk` over a list of root nodes, concatenated. -/
def pyWalkList : List PyNode → List PyNode
  | [] => []
  | n :: ns => pyWalk n ++ pyWalkList ns

/-- `ast.walk` over an optional child. -/
def pyWalkOpt : Option PyNode → List PyNode
  | none => []
  | some n => pyWalk n

end

example : (pyWalk (.exprStmt (.name "x"))).length = 2 := by decide
example : pyWalk (.exprStmt (.name "x")) = [.exprStmt (.name "x"), .name "x"] := rfl

/-! ## `python-lens/analyzer.py`: data model

The dataclasses of `analyzer.py`.  `VariableInfo.annotation` defaults to
`None` and is never written or read by the analyzer, so it is omitted. -/

/-- `FunctionInfo` dataclass. -/
structure FunctionInfo where
  name : String
  args : List String
  returns : Option String
  docstring : Option String
  line_start : Nat
  line_end : Nat
  complexity : Nat
  calls : List String
  decorators : List String
deriving DecidableEq, Repr

/-- `ClassInfo` dataclass. -/
structure ClassInfo where
  name : String
  bases : List String
  methods : List FunctionInfo
  docstring : Option String
  line_start : Nat
  line_end : Nat
  decorators : List String
deriving DecidableEq, Repr

/-- `ImportInfo` dataclass. -/
structure ImportInfo where
  module : String
  names : List String
  «alias» : Option String
  line : Nat
deriving DecidableEq, Repr

/-- `VariableInfo` dataclass (the unused `annotation` field omitted). -/
structure VariableInfo where
  name : String
  line : Nat
deriving DecidableEq, Repr

/-- The analyzer per-parse state: `self.functions`, `self.classes`,
`self.imports`, `self.globals`, all reset at the top of `_analyze`. -/
structure AnalyzerState where
  functions : List FunctionInfo
  classes : List ClassInfo
  imports : List ImportInfo
  globals : List VariableInfo
deriving DecidableEq, Repr

/-! ## `python-lens/analyzer.py`: analysis functions -/

/-- `ast.unparse` restricted to the expression shapes the analyzer ever
unparses (return-type expressions and base-class expressions: names,
attribute chains, simple constants); other shapes render as `""`. -/
def pyUnparse : PyNode → String
  | .name id => id
  | .attribute v a => pyUnparse v ++ "." ++ a
  | .constant (.int n) => toString n
  | .constant (.str s) => s
  | _ => ""

/-- `node.end_lineno or node.lineno`: the Python `or` falls back on a falsy
(`None`/`0`) left operand; on the `Nat` model only `0` is falsy. -/
def lineEndOr (pos : PyPos) : Nat :=
  if pos.endLineno = 0 then pos.lineno else pos.endLineno

/-- `ast.get_docstring(node)`: the leading string-constant expression
statement of a body, if any. -/
def getDocstring (body : List PyNode) : Option String :=
  match body with
  | .exprStmt (.constant (.str s)) :: _ => some s
  | _ => none

/-- Decorator-name extraction common to `_analyze_function` and
`_analyze_class`: `Name` decorators and `Call`-of-`Name` decorators. -/
def decoratorNames (decs : List PyNode) : List String :=
  decs.filterMap fun d =>
    match d with
    | .name id => some id
    | .call (.name id) _ => some id
    | _ => none

/-- `PythonAnalyzer._calculate_complexity`: 1, plus 1 per
`If`/`While`/`For`/`ExceptHandler` in the walk, plus `len(values) - 1` per
`BoolOp` (a `BoolOp` produced by the Python grammar always has at least two
operands). -/
def calculate_complexity (n : PyNode) : Nat :=
  (pyWalk n).foldl
    (fun acc c =>
      match c with
      | .ifStmt _ _ _ => acc + 1
      | .whileStmt _ _ _ => acc + 1
      | .forStmt _ _ _ _ => acc + 1
      | .exceptHandler _ => acc + 1
      | .boolOp values => acc + (values.length - 1)
      | _ => acc)
    1

/-- The callee names collected by the `_analyze_function` walk: `Name` callees
contribute `func.id`, `Attribute` callees contribute `func.attr`. -/
def callNames (n : PyNode) : List String :=
  (pyWalk n).filterMap fun c =>
    match c with
    | .call (.name id) _ => some id
    | .call (.attribute _ attr) _ => some attr
    | _ => none

/-- `PythonAnalyzer._analyze_function` on a `FunctionDef` with the given
fields.  `list(set(calls))` is modelled as first-occurrence deduplication;
the CPython set iteration order is unspecified and no claim consults the
order of `calls`. -/
def analyze_function (nm : String) (args : List String) (body : List PyNode)
    (decs : List PyNode) (r : Option PyNode) (pos : PyPos) : FunctionInfo :=
  { name := nm
    args := args
    returns := r.map pyUnparse
    docstring := getDocstring body
    line_start := pos.lineno
    line_end := lineEndOr pos
    complexity := calculate_complexity (.functionDef nm args body decs r pos)
    calls := (callNames (.functionDef nm args body decs r pos)).eraseDups
    decorators := decoratorNames decs }

/-- `PythonAnalyzer._analyze_class` on a `ClassDef` with the given fields:
base names from `Name`/`Attribute` bases, methods from the `FunctionDef`
statements directly in the class body. -/
def analyze_class (nm : String) (bases : List PyNode) (body : List PyNode)
    (decs : List PyNode) (pos : PyPos) : ClassInfo :=
  { name := nm
    bases := bases.filterMap fun b =>
      match b with
      | .name id => some id
      | .attribute _ attr => some attr
      | _ => none
    methods := body.filterMap fun it =>
      match it with
      | .functionDef n a b d r p => some (analyze_function n a b d r p)
      | _ => none
    docstring := getDocstring body
    line_start := pos.lineno
    line_end := lineEndOr pos
    decorators := decoratorNames decs }

/-- `PythonAnalyzer._analyze_import`: one `ImportInfo` per alias of a plain
`import`, a single `ImportInfo` for a `from ... import ...`. -/
def analyze_import : PyNode → List ImportInfo
  | .importStmt names pos =>
      names.map fun al => { module := al.1, names := [al.1], «alias» := al.2, line := pos.lineno }
  | .importFrom m names pos =>
      [{ module := m.getD "", names := names.map (·.1), «alias» := none, line := pos.lineno }]
  | _ => []

/-- One step of the `_analyze` dispatch over the walked node.  `AsyncFunctionDef`
is not an `ast.FunctionDef` in Python, so async defs fall through.  The
always-true `isinstance(node.col_offset, int)` guard is dropped. -/
def analyzeStep (s : AnalyzerState) (n : PyNode) : AnalyzerState :=
  match n with
  | .functionDef nm args body decs r pos =>
      { s with functions := s.functions ++ [analyze_function nm args body decs r pos] }
  | .classDef nm bases body decs pos =>
      { s with classes := s.classes ++ [analyze_class nm bases body decs pos] }
  | .importStmt names pos => { s with imports := s.imports ++ analyze_import (.importStmt names pos) }
  | .importFrom m names pos => { s with imports := s.imports ++ analyze_import (.importFrom m names pos) }
  | .assign targets _ pos =>
      if pos.colOffset = 0 then
        { s with globals := s.globals ++ targets.filterMap fun t =>
            match t with
            | .name id => some { name := id, line := pos.lineno }
            | _ => none }
      else s
  | _ => s

/-- `PythonAnalyzer._analyze` (as run by `parse`): fold the dispatch over
`ast.walk(self.tree)`, starting from the freshly reset state. -/
def analyze (tree : PyNode) : AnalyzerState :=
  (pyWalk tree).foldl analyzeStep ⟨[], [], [], []⟩

/-- `PythonAnalyzer.get_all_functions`: module-walk functions followed by
every class method list. -/
def get_all_functions (s : AnalyzerState) : List FunctionInfo :=
  s.functions ++ (s.classes.map ClassInfo.methods).flatten

/-- The `"num_functions"` entry of `PythonAnalyzer.get_statistics`:
`len(all_functions)`. -/
def num_functions (s : AnalyzerState) : Nat :=
  (get_all_functions s).length

/-- The set of used names built by `PythonAnalyzer.find_unused_imports`:
every `Name.id` in the walk plus the base `Name.id` of every `Attribute`
(membership models Python set membership). -/
def used_names (tree : PyNode) : List String :=
  (pyWalk tree).foldr
    (fun n acc =>
      match n with
      | .name id => id :: acc
      | .attribute (.name id) _ => id :: acc
      | _ => acc)
    []

/-- `PythonAnalyzer.find_unused_imports` over the state produced by `parse`:
aliased imports are reported as `"module as alias"` when the alias is unused;
unaliased imports report each unused name, module-qualified when the module
string is nonempty; `*` is never reported. -/
def find_unused_imports (tree : PyNode) : List String :=
  ((analyze tree).imports.map fun imp =>
    match imp.«alias» with
    | some a => if a ∈ used_names tree then [] else [imp.module ++ " as " ++ a]
    | none =>
        imp.names.filterMap fun nm =>
          if nm ∈ used_names tree ∨ nm = "*" then none
          else some (if imp.module = "" then nm else imp.module ++ "." ++ nm)).flatten

/-! ## `syntax-forge`: AST model (`syntax_forge/ast_types.py`) -/

namespace Forge

/-- The `NodeType` enumeration. -/
inductive NodeType where
  | PROGRAM
  | FUNCTION_DECLARATION
  | CLASS_DECLARATION
  | METHOD_DECLARATION
  | VARIABLE_DECLARATION
  | IF_STATEMENT
  | WHILE_LOOP
  | FOR_LOOP
  | RETURN_STATEMENT
  | EXPRESSION_STATEMENT
  | BLOCK_STATEMENT
  | CALL_EXPRESSION
  | IDENTIFIER
  | LITERAL
deriving DecidableEq, Repr

/-- `SourceLocation` dataclass. -/
structure SourceLocation where
  line : Nat
  column : Nat
deriving DecidableEq, Repr

/-- `SourceRange` dataclass; the Python `end` field is `endPos` (`end` is a
Lean keyword). -/
structure SourceRange where
  start : SourceLocation
  endPos : SourceLocation
deriving DecidableEq, Repr

/-- The `ast_types.py` dataclass hierarchy as one closed type.  Every variant
carries its `type` field explicitly (in Python it is an ordinary field with a
per-class default, always passed explicitly by `parser.py`).
`FunctionDeclaration.params` entries are `(name, annotation-text)` pairs for
the `{"name": ..., "annotation": ...}` dicts.  `VariableDeclaration.init` and
`ASTNode.metadata` are never written with a non-default value nor read
anywhere in the repository and are omitted. -/
inductive ASTNode where
  | prog (ty : NodeType) (loc : Option SourceRange) (body : List ASTNode) (sourceType : String)
  | funcDecl (ty : NodeType) (loc : Option SourceRange) (name : String)
      (params : List (String × Option String)) (body : Option ASTNode)
      (isAsync : Bool) (generator : Bool)
  | classDecl (ty : NodeType) (loc : Option SourceRange) (name : String)
      (superClass : Option String) (body : List ASTNode)
  | varDecl (ty : NodeType) (loc : Option SourceRange) (name : String) (kind : String)
  | base (ty : NodeType) (loc : Option SourceRange)
deriving Repr

/-- The `type` field, uniform over variants. -/
def ASTNode.ty : ASTNode → NodeType
  | .prog t _ _ _ => t
  | .funcDecl t _ _ _ _ _ _ => t
  | .classDecl t _ _ _ _ => t
  | .varDecl t _ _ _ => t
  | .base t _ => t

/-- The `loc` field, uniform over variants. -/
def ASTNode.loc : ASTNode → Option SourceRange
  | .prog _ l _ _ => l
  | .funcDecl _ l _ _ _ _ _ => l
  | .classDecl _ l _ _ _ => l
  | .varDecl _ l _ _ => l
  | .base _ l => l

/-! ## `syntax-forge/ast_utils.py`: traversal and metrics -/

mutual

/-- `ast_utils.walk`: pre-order DFS over the `body` attribute.  `Program` and
`ClassDeclaration` have list bodies, `FunctionDeclaration` an optional body,
`VariableDeclaration` and bare `ASTNode` no `body` attribute at all.  The
visit sequence is the callback-invocation sequence of the source. -/
def fwalk : ASTNode → List ASTNode
  | .prog t l body st => .prog t l body st :: fwalkList body
  | .funcDecl t l nm ps body a g => .funcDecl t l nm ps body a g :: fwalkOpt body
  | .classDecl t l nm sc body => .classDecl t l nm sc body :: fwalkList body
  | .varDecl t l nm k => [.varDecl t l nm k]
  | .base t l => [.base t l]

/-- `walk` over a list-valued `body`, left to right. -/
def fwalkList : List ASTNode → List ASTNode
  | [] => []
  | n :: ns => fwalk n ++ fwalkList ns

/-- `walk` over an optional `body` (`elif node.body:`). -/
def fwalkOpt : Option ASTNode → List ASTNode
  | none => []
  | some n => fwalk n

end

/-- The line-containment test of `find_node_at_line`:
`node.loc and node.loc.start.line <= line <= node.loc.end.line`. -/
def containsLine (n : ASTNode) (line : Nat) : Bool :=
  match n.loc with
  | some r => r.start.line ≤ line && line ≤ r.endPos.line
  | none => false

/-- `ast_utils.find_node_at_line`: the walk callback overwrites the
closure-captured `result` cell whenever the visited node range contains
the line; modelled as a fold of that update over the visit sequence. -/
def find_node_at_line (t : ASTNode) (line : Nat) : Option ASTNode :=
  (fwalk t).foldl (fun res n => if containsLine n line then some n else res) none

/-- `ast_utils.calculate_complexity`: 1 plus the number of visited nodes whose
`type` is in `[IF_STATEMENT, WHILE_LOOP, FOR_LOOP]`. -/
def calculate_complexity (t : ASTNode) : Nat :=
  (fwalk t).foldl
    (fun acc n =>
      if n.ty ∈ [NodeType.IF_STATEMENT, NodeType.WHILE_LOOP, NodeType.FOR_LOOP]
      then acc + 1 else acc)
    1

/-! ## `syntax-forge/syntax_forge/parser.py` -/

/-- The recoverable `SyntaxError` data the CPython `ast.parse` raises:
`msg`, `lineno`, `offset`, `text`. -/
structure SynErr where
  msg : String
  lineno : Option Nat
  offset : Option Nat
  text : Option String
deriving DecidableEq, Repr

/-- One entry of `ParseResult.errors` (the "type" key is `etype`; `type` is the
dict key in Python). -/
structure ParseError where
  etype : String
  message : String
  line : Option Nat
  column : Option Nat
  text : Option String
deriving DecidableEq, Repr

/-- `ParseResult` with its `metadata` dict flattened into fields.  The
wall-clock `parse_time_ms` entry is not modelled (real time), and no claim
consults it. -/
structure ParseResult where
  ast : ASTNode
  errors : List ParseError
  warnings : List ParseError
  language : String
  nodeCount : Nat
  lineCount : Nat
  filename : Option String
deriving Repr

/-- `PythonASTParser._get_location`: every located native node modelled here
carries `lineno`/`col_offset`/`end_lineno`/`end_col_offset`, so the
`hasattr` guards are satisfied. -/
def getLocation (pos : PyPos) : Option SourceRange :=
  some { start := { line := pos.lineno, column := pos.colOffset },
         endPos := { line := pos.endLineno, column := pos.endColOffset } }

/-- The generator test of `_convert_node`:
`any(isinstance(n, ast.Yield) for n in ast.walk(node))`. -/
def hasYield (n : PyNode) : Bool :=
  (pyWalk n).any fun c =>
    match c with
    | .yieldExpr _ => true
    | _ => false

/-- `PythonASTParser._convert_node`: `FunctionDef`/`AsyncFunctionDef` become
`FunctionDeclaration` (body simplified to `None` by the source), `ClassDef`
becomes `ClassDeclaration` with `super_class` the first unparsed base and an
empty body, `Assign` whose first target is a `Name` becomes
`VariableDeclaration`; everything else converts to `None`.  Native arg
nodes modelled here carry no annotation expression, so params pair each
name with `none`. -/
def convertNode : PyNode → Option ASTNode
  | .functionDef nm args body decs r pos =>
      some (.funcDecl NodeType.FUNCTION_DECLARATION (getLocation pos) nm
        (args.map fun a => (a, none)) none false
        (hasYield (.functionDef nm args body decs r pos)))
  | .asyncFunctionDef nm args body decs r pos =>
      some (.funcDecl NodeType.FUNCTION_DECLARATION (getLocation pos) nm
        (args.map fun a => (a, none)) none true
        (hasYield (.asyncFunctionDef nm args body decs r pos)))
  | .classDef nm bases _ _ pos =>
      some (.classDecl NodeType.CLASS_DECLARATION (getLocation pos) nm
        (bases.map pyUnparse).head? [])
  | .assign (.name id :: _) _ pos =>
      some (.varDecl NodeType.VARIABLE_DECLARATION (getLocation pos) id "var")
  | _ => none

/-- `PythonASTParser._convert_ast`: walk the whole native tree, skip the
`Module` node, and append every successful conversion.  The
`isinstance(node, (FunctionDef, AsyncFunctionDef, ClassDef, Assign))` guard
coincides with `convertNode` being `some`, and all four kinds carry
`lineno`. -/
def convertAst (tree : PyNode) : ASTNode :=
  .prog NodeType.PROGRAM none
    ((pyWalk tree).filterMap fun n =>
      match n with
      | .module _ => none
      | _ => convertNode n)
    "module"

/-- `len(code.splitlines())`, for sources whose line breaks are `\n`. -/
def pyLineCount (code : String) : Nat :=
  if code = "" then 0
  else if code.endsWith "\n" then (code.splitOn "\n").length - 1
  else (code.splitOn "\n").length

/-- `PythonASTParser.parse`.  The outcome of the external collaborator
`ast.parse(code, ...)` is the `native` argument: `.ok tree` when the source
parses, `.error e` when it raises a recoverable `SyntaxError` (which the
method catches).  Totality of this function is the "never raises" contract. -/
def parserParse (native : Except SynErr PyNode) (code : String)
    (filename : Option String) : ParseResult :=
  match native with
  | .ok tree =>
      { ast := convertAst tree
        errors := []
        warnings := []
        language := "python"
        nodeCount := (pyWalk tree).length
        lineCount := pyLineCount code
        filename := filename }
  | .error e =>
      { ast := .prog NodeType.PROGRAM none [] "module"
        errors := [{ etype := "SyntaxError", message := e.msg, line := e.lineno,
                     column := e.offset, text := e.text }]
        warnings := []
        language := "python"
        nodeCount := 0
        lineCount := pyLineCount code
        filename := filename }

/-! ### Parser capability and registry -/

/-- A parser as the registry sees it: its `get_supported_extensions()` and
`get_language_id()` configuration (`BaseParser` subclasses are stateless
beyond this, per the source). -/
structure BaseParser where
  supported_extensions : List String
  language_id : String
deriving DecidableEq, Repr

/-- `str.lower()` (ASCII). -/
def strLower (s : String) : String :=
  String.mk (s.data.map Char.toLower)

/-- the Python `str.split` at the dot character: maximal (possibly empty) segments between
dots; `splitDot s != []` always, and `[-1]` is the last segment. -/
def splitDot : List Char → List (List Char)
  | [] => [[]]
  | c :: cs =>
      let rest := splitDot cs
      if c = '.' then [] :: rest
      else
        match rest with
        | r :: rs => (c :: r) :: rs
        | [] => [[c]]

/-- `BaseParser.can_parse`: `filename.split(dot)[-1].lower()` is among the
supported extensions. -/
def can_parse (p : BaseParser) (filename : String) : Bool :=
  let ext := String.mk (((splitDot filename.data).getLastD []).map Char.toLower)
  p.supported_extensions.contains ext

/-- The `PythonASTParser` capability configuration:
extensions `["py", "pyw", "python"]`, language id `"python"`. -/
def pythonParser : BaseParser :=
  { supported_extensions := ["py", "pyw", "python"], language_id := "python" }

/-- The registry `self._parsers` dict: an insertion-ordered association
list with CPython dict semantics (`values()` iterates in insertion order of
first registration; assigning to an existing key replaces in place). -/
abbrev Registry := List (String × BaseParser)

/-- `self._parsers[key] = parser` on the ordered-dict model. -/
def dictInsert (m : Registry) (k : String) (v : BaseParser) : Registry :=
  if m.any fun kv => kv.1 == k then
    m.map fun kv => if kv.1 == k then (kv.1, v) else kv
  else m ++ [(k, v)]

/-- `ParserRegistry.register`: lowercase the language id, then dict-assign. -/
def register (m : Registry) (id : String) (p : BaseParser) : Registry :=
  dictInsert m (strLower id) p

/-- `ParserRegistry.get_parser_by_filename`: first parser in
`self._parsers.values()` whose `can_parse` holds, else `None`. -/
def get_parser_by_filename (m : Registry) (filename : String) : Option BaseParser :=
  (m.map Prod.snd).find? fun p => can_parse p filename

/-- `ParserRegistry.__init__`: auto-registers the Python parser. -/
def initRegistry : Registry :=
  register [] "python" pythonParser

end Forge

/-! ## Derived counting functions and claim scenario inputs -/

/-- The `body` of a `Program` node (empty for non-`Program` variants). -/
def Forge.ASTNode.progBody : Forge.ASTNode → List Forge.ASTNode
  | .prog _ _ b _ => b
  | _ => []

/-- Number of conditional / loop / exception-handler nodes in a native
subtree (`ast.If`, `ast.While`, `ast.For`, `ast.ExceptHandler`). -/
def decisionNodeCount (n : PyNode) : Nat :=
  ((pyWalk n).filter fun c =>
    match c with
    | .ifStmt _ _ _ => true
    | .whileStmt _ _ _ => true
    | .forStmt _ _ _ _ => true
    | .exceptHandler _ => true
    | _ => false).length

/-- Total boolean-combinator surcharge in a native subtree: `(n-1)` summed
over every `BoolOp` with `n` operands. -/
def boolOpExtra (n : PyNode) : Nat :=
  ((pyWalk n).map fun c =>
    match c with
    | .boolOp values => values.length - 1
    | _ => 0).sum

/-- `[analyze_function ...]` when the node is a `FunctionDef`, else `[]`:
the `self.functions` contribution of one `_analyze` dispatch step. -/
def fnInfoOf : PyNode → List FunctionInfo
  | .functionDef nm args body decs r pos => [analyze_function nm args body decs r pos]
  | _ => []

/-- `[analyze_class ...]` when the node is a `ClassDef`, else `[]`. -/
def clsInfoOf : PyNode → List ClassInfo
  | .classDef nm bases body decs pos => [analyze_class nm bases body decs pos]
  | _ => []

/-- Number of visited nodes tagged `IfStatement`, `WhileLoop` or `ForLoop`
in a syntax-forge walk. -/
def Forge.decisionTagCount (l : List Forge.ASTNode) : Nat :=
  (l.filter fun n =>
    decide (n.ty ∈ [Forge.NodeType.IF_STATEMENT, Forge.NodeType.WHILE_LOOP,
      Forge.NodeType.FOR_LOOP])).length

/-- The native tree of `import os\nimport sys\nprint(sys.path)`. -/
def srcC1 : PyNode :=
  .module
    [ .importStmt [("os", none)] ⟨1, 0, 1, 9⟩,
      .importStmt [("sys", none)] ⟨2, 0, 2, 10⟩,
      .exprStmt (.call (.name "print") [.attribute (.name "sys") "path"]) ]

/-- The native tree of `def f():\n    def g():\n        pass\n`
(a nested function definition). -/
def srcC2 : PyNode :=
  .module
    [ .functionDef "f" []
        [ .functionDef "g" [] [.passStmt] [] none ⟨2, 4, 3, 12⟩ ]
        [] none ⟨1, 0, 3, 12⟩ ]

/-- The native tree of `class C:\n    def m(self):\n        pass\n`. -/
def srcC3 : PyNode :=
  .module
    [ .classDef "C" []
        [ .functionDef "m" ["self"] [.passStmt] [] none ⟨2, 4, 3, 12⟩ ]
        [] ⟨1, 0, 3, 12⟩ ]

/-- The native tree of `def f(x):\n    if x:\n        return 1\n    return 0\n`. -/
def srcC4 : PyNode :=
  .module
    [ .functionDef "f" ["x"]
        [ .ifStmt (.name "x") [.ret (some (.constant (.int 1)))] [],
          .ret (some (.constant (.int 0))) ]
        [] none ⟨1, 0, 4, 12⟩ ]

/-- A second parser configuration for registry scenarios. -/
def Forge.textParser : Forge.BaseParser :=
  { supported_extensions := ["txt"], language_id := "text" }

/-! ## Supporting lemmas: the native walk -/

/-- `pyWalkList` distributes over list concatenation. -/
theorem pyWalkList_append (a b : List PyNode) :
    pyWalkList (a ++ b) = pyWalkList a ++ pyWalkList b := by
  induction a with
  | nil => simp [pyWalkList]
  | cons n ns ih => simp [pyWalkList, ih]

/-- `pyWalkList` over `Option.toList` is `pyWalkOpt`. -/
theorem pyWalkList_toList (r : Option PyNode) :
    pyWalkList r.toList = pyWalkOpt r := by
  cases r <;> simp [pyWalkList, pyWalkOpt]

/-- The walk of a node is the node followed by the walks of its children. -/
theorem pyWalk_cons (n : PyNode) :
    pyWalk n = n :: pyWalkList n.children := by
  cases n <;>
    simp [pyWalk, PyNode.children, pyWalkList, pyWalkList_append, pyWalkList_toList]

/-- Membership in a list walk is membership in some root walk. -/
theorem mem_pyWalkList {l : List PyNode} {x : PyNode} :
    x ∈ pyWalkList l ↔ ∃ n ∈ l, x ∈ pyWalk n := by
  induction l with
  | nil => simp [pyWalkList]
  | cons n ns ih => simp [pyWalkList, ih]

/-- A node is in its own walk. -/
theorem self_mem_pyWalk (n : PyNode) : n ∈ pyWalk n := by
  rw [pyWalk_cons]; exact List.mem_cons_self n _

/-- A child is structurally smaller than its parent. -/
theorem sizeOf_lt_of_mem_children : ∀ {t c : PyNode}, c ∈ t.children → sizeOf c < sizeOf t := by
  intro t c h
  cases t <;>
    simp only [PyNode.children, List.mem_append, List.mem_cons, List.mem_singleton,
      List.not_mem_nil, Option.mem_toList, Option.mem_def, or_false, false_or] at h
  all_goals try casesm* _ ∨ _
  all_goals try subst_vars
  all_goals
    first
      | (simp; omega)
      | (have hlt := List.sizeOf_lt_of_mem h; simp; omega)
      | (rename_i hmem
         have hlt := List.sizeOf_lt_of_mem hmem
         simp
         omega)
      | simp_all

/-- `ast.walk` is transitively closed: anything in the walk of a walked node
is in the outer walk. -/
theorem mem_pyWalk_trans (c x t : PyNode) (hc : c ∈ pyWalk t) (hx : x ∈ pyWalk c) :
    x ∈ pyWalk t := by
  rw [pyWalk_cons] at hc ⊢
  rcases List.mem_cons.mp hc with rfl | hc2
  · rw [pyWalk_cons] at hx
    exact hx
  · obtain ⟨ch, hch, hcw⟩ := mem_pyWalkList.mp hc2
    exact List.mem_cons_of_mem _ (mem_pyWalkList.mpr ⟨ch, hch, mem_pyWalk_trans c x ch hcw hx⟩)
termination_by sizeOf t
decreasing_by exact sizeOf_lt_of_mem_children hch

/-! ## Supporting lemmas: the analyzer fold -/

/-- The `self.functions` effect of one `_analyze` dispatch step. -/
theorem analyzeStep_functions (s : AnalyzerState) (n : PyNode) :
    (analyzeStep s n).functions = s.functions ++ fnInfoOf n := by
  cases n <;> simp only [analyzeStep, fnInfoOf] <;> (try split) <;> simp

/-- The `self.classes` effect of one `_analyze` dispatch step. -/
theorem analyzeStep_classes (s : AnalyzerState) (n : PyNode) :
    (analyzeStep s n).classes = s.classes ++ clsInfoOf n := by
  cases n <;> simp only [analyzeStep, clsInfoOf] <;> (try split) <;> simp

/-- The `self.imports` effect of one `_analyze` dispatch step. -/
theorem analyzeStep_imports (s : AnalyzerState) (n : PyNode) :
    (analyzeStep s n).imports = s.imports ++ analyze_import n := by
  cases n <;> simp only [analyzeStep, analyze_import] <;> (try split) <;> simp

/-- Folding the `_analyze` dispatch accumulates one `FunctionInfo` per
`FunctionDef` visited, in visit order. -/
theorem foldl_analyze_functions (l : List PyNode) : ∀ (s : AnalyzerState),
    (l.foldl analyzeStep s).functions = s.functions ++ l.flatMap fnInfoOf := by
  induction l with
  | nil => simp
  | cons n ns ih => intro s; simp [ih, analyzeStep_functions]

/-- Folding the `_analyze` dispatch accumulates one `ClassInfo` per `ClassDef`
visited, in visit order. -/
theorem foldl_analyze_classes (l : List PyNode) : ∀ (s : AnalyzerState),
    (l.foldl analyzeStep s).classes = s.classes ++ l.flatMap clsInfoOf := by
  induction l with
  | nil => simp
  | cons n ns ih => intro s; simp [ih, analyzeStep_classes]

/-- Folding the `_analyze` dispatch accumulates the `ImportInfo` entries of
every import statement visited, in visit order. -/
theorem foldl_analyze_imports (l : List PyNode) : ∀ (s : AnalyzerState),
    (l.foldl analyzeStep s).imports = s.imports ++ l.flatMap analyze_import := by
  induction l with
  | nil => simp
  | cons n ns ih => intro s; simp [ih, analyzeStep_imports]

/-- `self.functions` after `parse`: one entry per walked `FunctionDef`. -/
theorem analyze_functions_eq (t : PyNode) :
    (analyze t).functions = (pyWalk t).flatMap fnInfoOf := by
  simp [analyze, foldl_analyze_functions]

/-- `self.classes` after `parse`: one entry per walked `ClassDef`. -/
theorem analyze_classes_eq (t : PyNode) :
    (analyze t).classes = (pyWalk t).flatMap clsInfoOf := by
  simp [analyze, foldl_analyze_classes]

/-- `self.imports` after `parse`: the imports of every walked import node. -/
theorem analyze_imports_eq (t : PyNode) :
    (analyze t).imports = (pyWalk t).flatMap analyze_import := by
  simp [analyze, foldl_analyze_imports]

/-! ## Supporting lemmas: complexity folds -/

/-- Closed form of the `_calculate_complexity` fold over any visit list. -/
theorem complexity_fold (l : List PyNode) : ∀ (a : Nat),
    l.foldl
      (fun acc c =>
        match c with
        | .ifStmt _ _ _ => acc + 1
        | .whileStmt _ _ _ => acc + 1
        | .forStmt _ _ _ _ => acc + 1
        | .exceptHandler _ => acc + 1
        | .boolOp values => acc + (values.length - 1)
        | _ => acc) a
    = a + (l.filter fun c =>
        match c with
        | .ifStmt _ _ _ => true
        | .whileStmt _ _ _ => true
        | .forStmt _ _ _ _ => true
        | .exceptHandler _ => true
        | _ => false).length
      + (l.map fun c =>
        match c with
        | .boolOp values => values.length - 1
        | _ => 0).sum := by
  induction l with
  | nil => simp
  | cons c cs ih => intro a; cases c <;> simp [ih] <;> omega

/-- `_calculate_complexity` equals 1 plus the decision-node count plus the
boolean-combinator surcharge of the subtree. -/
theorem calculate_complexity_eq (n : PyNode) :
    calculate_complexity n = 1 + decisionNodeCount n + boolOpExtra n := by
  rw [calculate_complexity, decisionNodeCount, boolOpExtra, complexity_fold]
  try omega

/-! ## Supporting lemmas: the syntax-forge walk and metrics -/

/-- `fwalkList` distributes over list concatenation. -/
theorem fwalkList_append (a b : List Forge.ASTNode) :
    Forge.fwalkList (a ++ b) = Forge.fwalkList a ++ Forge.fwalkList b := by
  induction a with
  | nil => simp [Forge.fwalkList]
  | cons n ns ih => simp [Forge.fwalkList, ih]

/-- Closed form of a conditional-counting fold over any visit list. -/
theorem count_fold {α : Type} (P : α → Prop) [DecidablePred P] (l : List α) : ∀ (a : Nat),
    l.foldl (fun acc n => if P n then acc + 1 else acc) a
      = a + (l.filter fun n => decide (P n)).length := by
  induction l with
  | nil => simp
  | cons n ns ih =>
      intro a
      rw [List.foldl_cons]
      by_cases hq : P n <;> simp [hq, ih, List.filter_cons]
      all_goals omega

/-- `calculate_complexity` is 1 plus the number of walked
`IfStatement`/`WhileLoop`/`ForLoop` nodes. -/
theorem fcalculate_complexity_eq (t : Forge.ASTNode) :
    Forge.calculate_complexity t = 1 + Forge.decisionTagCount (Forge.fwalk t) := by
  rw [Forge.calculate_complexity, count_fold, Forge.decisionTagCount, Nat.add_comm]

/-- `decisionTagCount` is additive over concatenation. -/
theorem decisionTagCount_append (a b : List Forge.ASTNode) :
    Forge.decisionTagCount (a ++ b) = Forge.decisionTagCount a + Forge.decisionTagCount b := by
  simp [Forge.decisionTagCount]

/-- A last-write-wins fold over a visit list computes the last satisfying
element (or falls back on the initial accumulator). -/
theorem foldl_overwrite {α : Type} (p : α → Bool) (l : List α) : ∀ (init : Option α),
    l.foldl (fun res n => if p n then some n else res) init
      = ((l.filter p).getLast?).or init := by
  induction l with
  | nil => intro init; simp
  | cons a l ih =>
      intro init
      rw [List.foldl_cons, ih]
      by_cases hp : p a
      · simp only [List.filter_cons, hp, if_pos]
        cases hfl : l.filter p with
        | nil => simp
        | cons b xs =>
            rw [List.getLast?_cons_cons,
              List.getLast?_eq_getLast _ (by simp : b :: xs ≠ [])]
            simp
      · simp [List.filter_cons, hp]

/-- `getLast?` is `none` exactly on the empty list. -/
theorem getLast?_eq_none_iff {α : Type} (l : List α) :
    l.getLast? = none ↔ l = [] := by
  cases l with
  | nil => simp
  | cons b xs => rw [List.getLast?_eq_getLast _ (by simp : b :: xs ≠ [])]; simp

/-- `List.find?` returns the first satisfying element: it satisfies the
predicate and everything strictly before it falsifies it. -/
theorem find?_first {α : Type} (p : α → Bool) : ∀ (l : List α) (x : α),
    l.find? p = some x →
      p x = true ∧ ∃ l1 l2, l = l1 ++ x :: l2 ∧ ∀ y ∈ l1, p y = false := by
  intro l
  induction l with
  | nil => intro x h; simp [List.find?] at h
  | cons a l ih =>
      intro x h
      by_cases hp : p a
      · rw [List.find?_cons_of_pos _ hp] at h
        obtain rfl : a = x := by injection h
        exact ⟨hp, [], l, by simp, by simp⟩
      · rw [List.find?_cons_of_neg _ hp] at h
        obtain ⟨hpx, l1, l2, rfl, hall⟩ := ih x h
        refine ⟨hpx, a :: l1, l2, rfl, ?_⟩
        intro y hy
        rcases List.mem_cons.mp hy with rfl | hy2
        · simpa using hp
        · exact hall y hy2

/-! ## Claims -/

/-- C1 (counterexample): for the source `import os\nimport sys\nprint(sys.path)`,
`find_unused_imports()` does NOT return `["os"]` — the unused plain import is
reported module-qualified, not under the bare name `os`. -/
theorem claim_C1_counterexample : find_unused_imports srcC1 ≠ ["os"] := by decide

/-- C1 (amended): for the source `import os\nimport sys\nprint(sys.path)`,
`find_unused_imports()` returns exactly `["os.os"]`: the plain import of `os`
is the sole unused import, and an unaliased unused import is reported as
`f"{module}.{name}"`, which for a plain `import os` is `"os.os"`. -/
theorem claim_C1_amended : find_unused_imports srcC1 = ["os.os"] := by decide

/-- C2 (code evaluated at the failing input): for the source
`def f():\n    def g():\n        pass\n`, `_convert_ast` puts the conversion
of the nested function `g` — a declaration nested inside another function —
into `Program.body` alongside `f`, so `Program.body` is not restricted to
top-level statements (contradicting the claim and the source own comment
`# Only add top-level nodes to body`). -/
theorem claim_C2_code_bug :
    (Forge.convertAst srcC2).progBody
      = [ Forge.ASTNode.funcDecl Forge.NodeType.FUNCTION_DECLARATION
            (Forge.getLocation ⟨1, 0, 3, 12⟩) "f" [] none false false,
          Forge.ASTNode.funcDecl Forge.NodeType.FUNCTION_DECLARATION
            (Forge.getLocation ⟨2, 4, 3, 12⟩) "g" [] none false false ] := rfl

/-- C4: the complexity reported by `_analyze_function` is 1, plus 1 per
conditional/loop/exception-handler node in the function native subtree,
plus `(n-1)` per `n`-operand boolean combinator; and for the source
`def f(x):\n    if x:\n        return 1\n    return 0\n` the analyzer yields
exactly one `FunctionInfo`, named `"f"`, with `args == ["x"]` and
`complexity == 2`. -/
theorem claim_C4 :
    (∀ (nm : String) (args : List String) (body decs : List PyNode)
       (r : Option PyNode) (pos : PyPos),
       (analyze_function nm args body decs r pos).complexity
         = 1 + decisionNodeCount (.functionDef nm args body decs r pos)
             + boolOpExtra (.functionDef nm args body decs r pos)) ∧
    ((get_all_functions (analyze srcC4)).map fun f => (f.name, f.args, f.complexity))
        = [("f", ["x"], 2)] := by
  constructor
  · intro nm args body decs r pos
    exact calculate_complexity_eq _
  · decide

/-- C6: whenever the native parse fails with a recoverable syntax error,
`PythonASTParser.parse` returns (rather than raises) a `ParseResult` whose
`errors` list is the single `SyntaxError` entry carrying the error message,
line, column and offending text, and whose `ast` is an empty `Program`. -/
theorem claim_C6 (e : Forge.SynErr) (code : String) (fn : Option String) :
    (Forge.parserParse (.error e) code fn).errors
        = [{ etype := "SyntaxError", message := e.msg, line := e.lineno,
             column := e.offset, text := e.text }] ∧
    (Forge.parserParse (.error e) code fn).ast
        = Forge.ASTNode.prog Forge.NodeType.PROGRAM none [] "module" ∧
    (Forge.parserParse (.error e) code fn).ast.progBody = [] :=
  ⟨rfl, rfl, rfl⟩

/-- C3: whenever a class body contains a method (a `def` directly inside a
walked `ClassDef`), the analyzer records that method `FunctionInfo` both in
the module-wide `self.functions` (the full-tree walk of `_analyze` visits the
method node) and in the enclosing class `methods` list, so
`get_all_functions()` contains it at least twice and
`get_statistics()["num_functions"]` — the length of `get_all_functions()` —
counts it twice. -/
theorem claim_C3 (tree : PyNode)
    (cnm : String) (cbases cbody cdecs : List PyNode) (cpos : PyPos)
    (fnm : String) (fargs : List String) (fbody fdecs : List PyNode)
    (fr : Option PyNode) (fpos : PyPos)
    (hc : PyNode.classDef cnm cbases cbody cdecs cpos ∈ pyWalk tree)
    (hm : PyNode.functionDef fnm fargs fbody fdecs fr fpos ∈ cbody) :
    analyze_function fnm fargs fbody fdecs fr fpos ∈ (analyze tree).functions ∧
    analyze_class cnm cbases cbody cdecs cpos ∈ (analyze tree).classes ∧
    analyze_function fnm fargs fbody fdecs fr fpos
        ∈ (analyze_class cnm cbases cbody cdecs cpos).methods ∧
    2 ≤ (get_all_functions (analyze tree)).count
          (analyze_function fnm fargs fbody fdecs fr fpos) ∧
    num_functions (analyze tree) = (get_all_functions (analyze tree)).length := by
  have hmchild :
      PyNode.functionDef fnm fargs fbody fdecs fr fpos
        ∈ (PyNode.classDef cnm cbases cbody cdecs cpos).children := by
    simp [PyNode.children, hm]
  have hmwalkc :
      PyNode.functionDef fnm fargs fbody fdecs fr fpos
        ∈ pyWalk (PyNode.classDef cnm cbases cbody cdecs cpos) := by
    rw [pyWalk_cons]
    exact List.mem_cons_of_mem _
      (mem_pyWalkList.mpr ⟨_, hmchild, self_mem_pyWalk _⟩)
  have hmt : PyNode.functionDef fnm fargs fbody fdecs fr fpos ∈ pyWalk tree :=
    mem_pyWalk_trans _ _ _ hc hmwalkc
  have hfn : analyze_function fnm fargs fbody fdecs fr fpos ∈ (analyze tree).functions := by
    rw [analyze_functions_eq]
    exact List.mem_flatMap.mpr ⟨_, hmt, by simp [fnInfoOf]⟩
  have hcl : analyze_class cnm cbases cbody cdecs cpos ∈ (analyze tree).classes := by
    rw [analyze_classes_eq]
    exact List.mem_flatMap.mpr ⟨_, hc, by simp [clsInfoOf]⟩
  have hme : analyze_function fnm fargs fbody fdecs fr fpos
      ∈ (analyze_class cnm cbases cbody cdecs cpos).methods := by
    simp only [analyze_class]
    exact List.mem_filterMap.mpr ⟨_, hm, rfl⟩
  refine ⟨hfn, hcl, hme, ?_, rfl⟩
  have h1 : 0 < (analyze tree).functions.count
      (analyze_function fnm fargs fbody fdecs fr fpos) :=
    List.count_pos_iff.mpr hfn
  have h2 : 0 < (((analyze tree).classes.map ClassInfo.methods).flatten).count
      (analyze_function fnm fargs fbody fdecs fr fpos) :=
    List.count_pos_iff.mpr
      (List.mem_flatten.mpr ⟨_, List.mem_map_of_mem ClassInfo.methods hcl, hme⟩)
  rw [get_all_functions, List.count_append]
  omega

/-- C3 (witness): the scenario `class C:\n    def m(self):\n        pass\n`. -/
theorem claim_C3_witness :
    analyze_function "m" ["self"] [PyNode.passStmt] [] none ⟨2, 4, 3, 12⟩
        ∈ (analyze srcC3).functions ∧
    analyze_class "C" [] [PyNode.functionDef "m" ["self"] [PyNode.passStmt] [] none ⟨2, 4, 3, 12⟩]
        [] ⟨1, 0, 3, 12⟩ ∈ (analyze srcC3).classes ∧
    analyze_function "m" ["self"] [PyNode.passStmt] [] none ⟨2, 4, 3, 12⟩
        ∈ (analyze_class "C" []
            [PyNode.functionDef "m" ["self"] [PyNode.passStmt] [] none ⟨2, 4, 3, 12⟩]
            [] ⟨1, 0, 3, 12⟩).methods ∧
    2 ≤ (get_all_functions (analyze srcC3)).count
          (analyze_function "m" ["self"] [PyNode.passStmt] [] none ⟨2, 4, 3, 12⟩) ∧
    num_functions (analyze srcC3) = (get_all_functions (analyze srcC3)).length :=
  claim_C3 srcC3 "C" []
    [PyNode.functionDef "m" ["self"] [PyNode.passStmt] [] none ⟨2, 4, 3, 12⟩]
    [] ⟨1, 0, 3, 12⟩ "m" ["self"] [PyNode.passStmt] [] none ⟨2, 4, 3, 12⟩
    (by simp [srcC3, pyWalk, pyWalkList, pyWalkOpt])
    (by simp)

/-- C7: `find_node_at_line` returns the last node in pre-order visitation
order whose source range contains the line (the un-short-circuited walk
last overwrite wins), and `none` exactly when no visited node range
contains it. -/
theorem claim_C7 (t : Forge.ASTNode) (line : Nat) :
    Forge.find_node_at_line t line
        = ((Forge.fwalk t).filter fun n => Forge.containsLine n line).getLast? ∧
    (Forge.find_node_at_line t line = none ↔
      ∀ n ∈ Forge.fwalk t, Forge.containsLine n line = false) := by
  have h1 : Forge.find_node_at_line t line
      = ((Forge.fwalk t).filter fun n => Forge.containsLine n line).getLast? := by
    rw [Forge.find_node_at_line, foldl_overwrite]
    cases ((Forge.fwalk t).filter fun n => Forge.containsLine n line).getLast? <;> rfl
  refine ⟨h1, ?_⟩
  rw [h1, getLast?_eq_none_iff, List.filter_eq_nil_iff]
  simp

/-- `decisionTagCount` of an empty visit list is 0. -/
theorem decisionTagCount_nil : Forge.decisionTagCount ([] : List Forge.ASTNode) = 0 := rfl

/-- `decisionTagCount` of a cons splits off the head contribution. -/
theorem decisionTagCount_cons (x : Forge.ASTNode) (l : List Forge.ASTNode) :
    Forge.decisionTagCount (x :: l)
      = (if x.ty ∈ [Forge.NodeType.IF_STATEMENT, Forge.NodeType.WHILE_LOOP,
          Forge.NodeType.FOR_LOOP] then 1 else 0) + Forge.decisionTagCount l := by
  by_cases h : x.ty ∈ [Forge.NodeType.IF_STATEMENT, Forge.NodeType.WHILE_LOOP,
    Forge.NodeType.FOR_LOOP]
  · rw [if_pos h]
    rcases List.mem_cons.mp h with h1 | h1
    · simp [Forge.decisionTagCount, List.filter_cons, h1, Nat.add_comm]
    · rcases List.mem_cons.mp h1 with h2 | h2
      · simp [Forge.decisionTagCount, List.filter_cons, h2, Nat.add_comm]
      · have h3 : x.ty = Forge.NodeType.FOR_LOOP := by simpa using h2
        simp [Forge.decisionTagCount, List.filter_cons, h3, Nat.add_comm]
  · rw [if_neg h]
    have h1 : ¬x.ty = Forge.NodeType.IF_STATEMENT ∧ ¬x.ty = Forge.NodeType.WHILE_LOOP ∧
        ¬x.ty = Forge.NodeType.FOR_LOOP := by simpa using h
    simp [Forge.decisionTagCount, List.filter_cons, h1.1, h1.2.1, h1.2.2]

/-- C8: `calculate_complexity` starts at 1 and gains 1 for each
`IfStatement`, `WhileLoop` or `ForLoop` anywhere in the subtree; hence
adding one additional `IfStatement` node to the body list of a `Program` or
`ClassDeclaration`, or filling a the `FunctionDeclaration` empty optional body
with one `IfStatement` node, increases the result by exactly 1. -/
theorem claim_C8 :
    (∀ (t : Forge.ASTNode),
       Forge.calculate_complexity t = 1 + Forge.decisionTagCount (Forge.fwalk t)) ∧
    (∀ (ty : Forge.NodeType) (loc : Option Forge.SourceRange) (st : String)
       (cs1 cs2 : List Forge.ASTNode) (ifLoc : Option Forge.SourceRange),
       Forge.calculate_complexity
           (.prog ty loc (cs1 ++ .base Forge.NodeType.IF_STATEMENT ifLoc :: cs2) st)
         = Forge.calculate_complexity (.prog ty loc (cs1 ++ cs2) st) + 1) ∧
    (∀ (ty : Forge.NodeType) (loc : Option Forge.SourceRange) (nm : String)
       (sc : Option String) (cs1 cs2 : List Forge.ASTNode)
       (ifLoc : Option Forge.SourceRange),
       Forge.calculate_complexity
           (.classDecl ty loc nm sc (cs1 ++ .base Forge.NodeType.IF_STATEMENT ifLoc :: cs2))
         = Forge.calculate_complexity (.classDecl ty loc nm sc (cs1 ++ cs2)) + 1) ∧
    (∀ (ty : Forge.NodeType) (loc : Option Forge.SourceRange) (nm : String)
       (ps : List (String × Option String)) (a g : Bool)
       (ifLoc : Option Forge.SourceRange),
       Forge.calculate_complexity
           (.funcDecl ty loc nm ps (some (.base Forge.NodeType.IF_STATEMENT ifLoc)) a g)
         = Forge.calculate_complexity (.funcDecl ty loc nm ps none a g) + 1) := by
  refine ⟨fcalculate_complexity_eq, ?_, ?_, ?_⟩
  · intro ty loc st cs1 cs2 ifLoc
    have e1 : Forge.fwalk (.prog ty loc (cs1 ++ .base Forge.NodeType.IF_STATEMENT ifLoc :: cs2) st)
        = .prog ty loc (cs1 ++ .base Forge.NodeType.IF_STATEMENT ifLoc :: cs2) st
            :: Forge.fwalkList (cs1 ++ .base Forge.NodeType.IF_STATEMENT ifLoc :: cs2) := rfl
    have e2 : Forge.fwalk (.prog ty loc (cs1 ++ cs2) st)
        = .prog ty loc (cs1 ++ cs2) st :: Forge.fwalkList (cs1 ++ cs2) := rfl
    have e3 : Forge.fwalkList ((.base Forge.NodeType.IF_STATEMENT ifLoc : Forge.ASTNode) :: cs2)
        = .base Forge.NodeType.IF_STATEMENT ifLoc :: Forge.fwalkList cs2 := rfl
    rw [fcalculate_complexity_eq, fcalculate_complexity_eq, e1, e2, fwalkList_append,
      fwalkList_append, e3]
    simp only [decisionTagCount_cons, decisionTagCount_append, Forge.ASTNode.ty]
    simp only [List.mem_cons, List.not_mem_nil, or_false]
    simp
    omega
  · intro ty loc nm sc cs1 cs2 ifLoc
    have e1 : Forge.fwalk (.classDecl ty loc nm sc
          (cs1 ++ .base Forge.NodeType.IF_STATEMENT ifLoc :: cs2))
        = .classDecl ty loc nm sc (cs1 ++ .base Forge.NodeType.IF_STATEMENT ifLoc :: cs2)
            :: Forge.fwalkList (cs1 ++ .base Forge.NodeType.IF_STATEMENT ifLoc :: cs2) := rfl
    have e2 : Forge.fwalk (.classDecl ty loc nm sc (cs1 ++ cs2))
        = .classDecl ty loc nm sc (cs1 ++ cs2) :: Forge.fwalkList (cs1 ++ cs2) := rfl
    have e3 : Forge.fwalkList ((.base Forge.NodeType.IF_STATEMENT ifLoc : Forge.ASTNode) :: cs2)
        = .base Forge.NodeType.IF_STATEMENT ifLoc :: Forge.fwalkList cs2 := rfl
    rw [fcalculate_complexity_eq, fcalculate_complexity_eq, e1, e2, fwalkList_append,
      fwalkList_append, e3]
    simp only [decisionTagCount_cons, decisionTagCount_append, Forge.ASTNode.ty]
    simp only [List.mem_cons, List.not_mem_nil, or_false]
    simp
    omega
  · intro ty loc nm ps a g ifLoc
    have e1 : Forge.fwalk (.funcDecl ty loc nm ps
          (some (.base Forge.NodeType.IF_STATEMENT ifLoc)) a g)
        = .funcDecl ty loc nm ps (some (.base Forge.NodeType.IF_STATEMENT ifLoc)) a g
            :: [.base Forge.NodeType.IF_STATEMENT ifLoc] := rfl
    have e2 : Forge.fwalk (.funcDecl ty loc nm ps none a g)
        = [.funcDecl ty loc nm ps none a g] := rfl
    rw [fcalculate_complexity_eq, fcalculate_complexity_eq, e1, e2]
    simp only [decisionTagCount_cons, decisionTagCount_nil, Forge.ASTNode.ty]
    simp only [List.mem_cons, List.not_mem_nil, or_false]
    simp
    omega

/-- C5: if `get_parser_by_filename(f)` returns a parser `p`, then
`p.can_parse(f)` holds and `p` is the first parser in the registry
iteration (registration) order whose `can_parse(f)` holds; if it returns
none, no registered parser `can_parse(f)` holds. -/
theorem claim_C5 (m : Forge.Registry) (f : String) :
    (∀ p, Forge.get_parser_by_filename m f = some p →
        Forge.can_parse p f = true ∧
        ∃ l1 l2, m.map Prod.snd = l1 ++ p :: l2 ∧
          ∀ q ∈ l1, Forge.can_parse q f = false) ∧
    (Forge.get_parser_by_filename m f = none →
        ∀ q ∈ m.map Prod.snd, Forge.can_parse q f = false) := by
  constructor
  · intro p hp
    exact find?_first _ _ _ hp
  · intro hn q hq
    have h := List.find?_eq_none.mp hn q hq
    simpa using h

/-- C5 (witness): on the auto-initialized registry, `"x.py"` resolves to the
Python parser, which is first in registration order. -/
theorem claim_C5_witness :
    Forge.can_parse Forge.pythonParser "x.py" = true ∧
    ∃ l1 l2, Forge.initRegistry.map Prod.snd = l1 ++ Forge.pythonParser :: l2 ∧
      ∀ q ∈ l1, Forge.can_parse q "x.py" = false :=
  (claim_C5 Forge.initRegistry "x.py").1 Forge.pythonParser (by decide)

/-- C9: re-registering an already registered language id replaces only that
id parser: the key sequence (hence every other binding and the id
position in the first-match iteration order) is unchanged, each slot is
rewritten in place, and every binding for a different id survives. -/
theorem claim_C9 (m : Forge.Registry) (id : String) (p : Forge.BaseParser)
    (h : Forge.strLower id ∈ m.map Prod.fst) :
    ((Forge.register m id p).map Prod.fst = m.map Prod.fst) ∧
    (∀ (i : Nat) (kv : String × Forge.BaseParser), m[i]? = some kv →
        (Forge.register m id p)[i]?
          = some (if kv.1 = Forge.strLower id then (kv.1, p) else kv)) ∧
    (∀ kv ∈ m, kv.1 ≠ Forge.strLower id → kv ∈ Forge.register m id p) := by
  have hk : (m.any fun kv => kv.1 == Forge.strLower id) = true := by
    obtain ⟨kv, hkv, hfst⟩ := List.mem_map.mp h
    exact List.any_eq_true.mpr ⟨kv, hkv, by simp [hfst]⟩
  have hreg : Forge.register m id p
      = m.map (fun kv => if kv.1 == Forge.strLower id then (kv.1, p) else kv) := by
    rw [Forge.register, Forge.dictInsert, if_pos hk]
  refine ⟨?_, ?_, ?_⟩
  · rw [hreg, List.map_map]
    apply List.map_congr_left
    intro kv _
    by_cases hx : kv.1 = Forge.strLower id <;> simp [hx]
  · intro i kv hkv
    rw [hreg, List.getElem?_map, hkv]
    by_cases hx : kv.1 = Forge.strLower id <;> simp [hx]
  · intro kv hkv hne
    rw [hreg]
    refine List.mem_map.mpr ⟨kv, hkv, ?_⟩
    simp [hne]

/-- C9 (witness): re-registering `"PYTHON"` (case-folded to the existing key
`"python"`) on a two-entry registry keeps the key order, rewrites slot 0 in
place, and leaves the `"text"` binding untouched. -/
theorem claim_C9_witness :
    ((Forge.register [("python", Forge.pythonParser), ("text", Forge.textParser)]
        "PYTHON" Forge.textParser).map Prod.fst = ["python", "text"]) ∧
    ((Forge.register [("python", Forge.pythonParser), ("text", Forge.textParser)]
        "PYTHON" Forge.textParser)[0]? = some ("python", Forge.textParser)) ∧
    (("text", Forge.textParser) ∈ Forge.register
        [("python", Forge.pythonParser), ("text", Forge.textParser)]
        "PYTHON" Forge.textParser) := by
  have h := claim_C9 [("python", Forge.pythonParser), ("text", Forge.textParser)]
    "PYTHON" Forge.textParser (by decide)
  refine ⟨h.1, ?_, h.2.2 ("text", Forge.textParser) (by decide) (by decide)⟩
  have h2 := h.2.1 0 ("python", Forge.pythonParser) rfl
  simpa using h2

/-- With no `'.'` in the character list, `str.split` at the dot character is the whole
string as its single segment. -/
theorem splitDot_nodot : ∀ (cs : List Char), (∀ ch ∈ cs, ch ≠ '.') →
    Forge.splitDot cs = [cs] := by
  intro cs h
  induction cs with
  | nil => rfl
  | cons c cs ih =>
      have hc : c ≠ '.' := h c (by simp)
      have hrest := ih fun ch hch => h ch (by simp [hch])
      simp only [Forge.splitDot, hrest, if_neg hc]

/-- C10: for a filename with no `'.'`, `can_parse` treats the entire
lowercased filename as the trailing extension — it holds exactly when the
lowercased filename itself is a supported extension — and in particular
`PythonASTParser().can_parse("python")` is true. -/
theorem claim_C10 :
    (∀ (p : Forge.BaseParser) (f : String), (∀ ch ∈ f.data, ch ≠ '.') →
        (Forge.can_parse p f = true ↔
          Forge.strLower f ∈ p.supported_extensions)) ∧
    Forge.can_parse Forge.pythonParser "python" = true := by
  constructor
  · intro p f hf
    rw [Forge.can_parse, splitDot_nodot f.data hf]
    simp [Forge.strLower, List.getLastD]
  · decide

/-- C10 (witness): `"python"` contains no `'.'`, and `can_parse` on the
Python parser reduces to testing `"python"` against the supported
extensions. -/
theorem claim_C10_witness :
    (∀ ch ∈ "python".data, ch ≠ '.') ∧
    (Forge.can_parse Forge.pythonParser "python" = true ↔
      Forge.strLower "python" ∈ Forge.pythonParser.supported_extensions) :=
  ⟨by decide, claim_C10.1 Forge.pythonParser "python" (by decide)⟩
